import Mathlib

/-!
Verification of the aquaponics sensor core (`src/pi/conversions.py`,
`src/pi/logger.py`, `src/pi/sensors.py`, `src/pi/hal.py`).

Real numbers of the Python source are embedded as `ℚ`; Python `None` for a
numeric value becomes `Option ℚ`; functions that may raise are embedded with
`Except` or with an explicit failure-injection argument.  The file system seen
by `DataLogger` is embedded as the abstract content of the one backing file.
-/

namespace Aqua

/-- Rounding used by Python's builtin `round(x, n)`: round half to even.
`pyRound x` is the integer nearest to `x`, ties going to the even integer. -/
def pyRound (x : ℚ) : ℤ :=
  if x - (⌊x⌋ : ℚ) < 1/2 then ⌊x⌋
  else if 1/2 < x - (⌊x⌋ : ℚ) then ⌊x⌋ + 1
  else if ⌊x⌋ % 2 = 0 then ⌊x⌋ else ⌊x⌋ + 1

/-- Embedding of Python `round(x, 3)` on rationals. -/
def round3 (x : ℚ) : ℚ := (pyRound (x * 1000) : ℚ) / 1000

/-- Embedding of Python `round(x, 1)` on rationals. -/
def round1 (x : ℚ) : ℚ := (pyRound (x * 10) : ℚ) / 10

/-- Embedding of `conversions.ph_from_voltage` (src/pi/conversions.py:13-49).
The `voltage is None` guard disappears because the argument type is `ℚ`. -/
def ph_from_voltage (voltage slope intercept : ℚ) : Option ℚ :=
  if ¬ (0 ≤ voltage ∧ voltage ≤ 5) then none
  else if slope = 0 then none
  else
    let ph := slope * voltage + intercept
    if ¬ (0 ≤ ph ∧ ph ≤ 14) then none
    else some (round3 ph)

/-- Embedding of `conversions.tds_from_ec` (src/pi/conversions.py:106-141). -/
def tds_from_ec (ec_uS_cm : ℚ) (multiplier : ℚ) : Option ℚ :=
  if ec_uS_cm < 0 ∨ multiplier ≤ 0 then none
  else
    let tds := ec_uS_cm * multiplier
    if 5000 < tds then none
    else some (round1 tds)

/-- Embedding of `conversions.voltage_to_ph` (src/pi/conversions.py:164-177),
a direct wrapper around `ph_from_voltage`. -/
def voltage_to_ph (voltage slope intercept : ℚ) : Option ℚ :=
  ph_from_voltage voltage slope intercept

/-- Embedding of `conversions.validate_sensor_range`
(src/pi/conversions.py:210-232) restricted to present rational values; the
`None` / non-numeric / NaN / infinity branches all return `False` and are
unreachable for a `ℚ` argument. -/
def validate_sensor_range (value min_val max_val : ℚ) : Bool :=
  decide (min_val ≤ value ∧ value ≤ max_val)

theorem floor_le_pyRound (x : ℚ) : ⌊x⌋ ≤ pyRound x := by
  unfold pyRound
  split_ifs <;> omega

theorem pyRound_le_ceil (x : ℚ) : pyRound x ≤ ⌈x⌉ := by
  have hfc : ⌊x⌋ ≤ ⌈x⌉ := by
    exact_mod_cast (Int.floor_le x).trans (Int.le_ceil x)
  have hstep : (⌊x⌋ : ℚ) < x → ⌊x⌋ + 1 ≤ ⌈x⌉ := fun hx => Int.lt_ceil.mpr hx
  unfold pyRound
  split_ifs with h1 h2 h3
  · exact hfc
  · exact hstep (by linarith)
  · exact hfc
  · exact hstep (by linarith)

theorem pyRound_nonneg {x : ℚ} (hx : 0 ≤ x) : 0 ≤ pyRound x :=
  le_trans (Int.floor_nonneg.mpr hx) (floor_le_pyRound x)

theorem pyRound_le_of_le {x : ℚ} {n : ℤ} (hx : x ≤ (n : ℚ)) : pyRound x ≤ n :=
  le_trans (pyRound_le_ceil x) (Int.ceil_le.mpr hx)

theorem round3_mem_Icc {x : ℚ} (h0 : 0 ≤ x) (h14 : x ≤ 14) :
    0 ≤ round3 x ∧ round3 x ≤ 14 := by
  unfold round3
  constructor
  · have h : (0:ℤ) ≤ pyRound (x * 1000) := pyRound_nonneg (by linarith)
    have h2 : (0:ℚ) ≤ (pyRound (x * 1000) : ℚ) := by exact_mod_cast h
    linarith
  · have h : pyRound (x * 1000) ≤ (14000 : ℤ) := by
      apply pyRound_le_of_le
      push_cast
      linarith
    have h2 : (pyRound (x * 1000) : ℚ) ≤ 14000 := by exact_mod_cast h
    linarith

/-- C2: for every voltage in [0,5] and every nonzero slope, `ph_from_voltage`
is absent exactly when the unrounded linear result `slope*v + intercept` falls
outside [0,14], and a present result is that linear value rounded to 3
fractional digits, itself lying in [0,14]. -/
theorem ph_from_voltage_spec (v slope intercept : ℚ)
    (hv0 : 0 ≤ v) (hv5 : v ≤ 5) (hs : slope ≠ 0) :
    (ph_from_voltage v slope intercept = none ↔
      (slope * v + intercept < 0 ∨ 14 < slope * v + intercept)) ∧
    (∀ p, ph_from_voltage v slope intercept = some p →
      0 ≤ p ∧ p ≤ 14 ∧ p = round3 (slope * v + intercept)) := by
  have e1 : ph_from_voltage v slope intercept
      = if ¬ (0 ≤ slope * v + intercept ∧ slope * v + intercept ≤ 14) then none
        else some (round3 (slope * v + intercept)) := by
    unfold ph_from_voltage
    rw [if_neg (not_not_intro ⟨hv0, hv5⟩), if_neg hs]
  constructor
  · rw [e1]
    by_cases hp : 0 ≤ slope * v + intercept ∧ slope * v + intercept ≤ 14
    · rw [if_neg (not_not_intro hp)]
      constructor
      · intro h
        exact absurd h (Option.some_ne_none _)
      · intro h
        rcases h with h | h
        · exact absurd hp.1 (not_le.mpr h)
        · exact absurd hp.2 (not_le.mpr h)
    · rw [if_pos hp]
      constructor
      · intro _
        by_contra hcon
        push_neg at hcon
        exact hp hcon
      · intro _
        rfl
  · intro p hsome
    rw [e1] at hsome
    by_cases hp : 0 ≤ slope * v + intercept ∧ slope * v + intercept ≤ 14
    · rw [if_neg (not_not_intro hp)] at hsome
      obtain ⟨h0, h14⟩ := round3_mem_Icc hp.1 hp.2
      injection hsome with h
      subst h
      exact ⟨h0, h14, rfl⟩
    · rw [if_pos hp] at hsome
      exact absurd hsome.symm (Option.some_ne_none p)

/-- C2 witness: the specification applied at `v = 1`, `slope = 2`,
`intercept = 3`. -/
theorem ph_from_voltage_spec_witness :
    (ph_from_voltage 1 2 3 = none ↔
      ((2:ℚ) * 1 + 3 < 0 ∨ 14 < (2:ℚ) * 1 + 3)) ∧
    (∀ p, ph_from_voltage 1 2 3 = some p →
      0 ≤ p ∧ p ≤ 14 ∧ p = round3 ((2:ℚ) * 1 + 3)) :=
  ph_from_voltage_spec 1 2 3 (by norm_num) (by norm_num) (by norm_num)

/-! ### Time-series store (`src/pi/logger.py`) -/

/-- One persisted sensor reading.  A Python reading is a dict; the four fields
of the file format are `timestamp` (possibly missing, hence `Option String`),
`ph`, `tds` and `temp_c` (JSON number or `null`). -/
structure Reading where
  timestamp : Option String
  ph : Option ℚ
  tds : Option ℚ
  temp_c : Option ℚ
deriving DecidableEq

/-- Sort key used throughout `logger.py`: `x.get('timestamp', '')`. -/
def tsKey (r : Reading) : String := r.timestamp.getD ""

/-- Python string comparison: lexicographic on the character sequence. -/
def strLe (a b : String) : Prop := a.data ≤ b.data

instance : DecidableRel strLe :=
  fun a b => inferInstanceAs (Decidable (a.data ≤ b.data))

/-- The embedded string order agrees with the ambient order on `String`. -/
theorem strLe_iff_le (a b : String) : strLe a b ↔ a ≤ b :=
  String.le_iff_toList_le.symm

/-- Comparison used by `data.sort(key=lambda x: x.get('timestamp', ''))`. -/
def tsLe (a b : Reading) : Prop := strLe (tsKey a) (tsKey b)

instance : DecidableRel tsLe :=
  fun a b => inferInstanceAs (Decidable (strLe (tsKey a) (tsKey b)))

instance : IsTotal Reading tsLe :=
  ⟨fun a b => le_total (tsKey a).data (tsKey b).data⟩

instance : IsTrans Reading tsLe := ⟨fun _ _ _ h h2 => le_trans h h2⟩

/-- Stable sort by timestamp key, as performed by Python `list.sort` in
`load_data` (logger.py:51) and `save_data` (logger.py:70). -/
def sortByTs (l : List Reading) : List Reading := l.insertionSort tsLe

theorem sortByTs_sorted (l : List Reading) : (sortByTs l).Sorted tsLe :=
  List.sorted_insertionSort tsLe l

theorem sortByTs_perm (l : List Reading) : List.Perm (sortByTs l) l :=
  List.perm_insertionSort tsLe l

theorem sortByTs_idem (l : List Reading) : sortByTs (sortByTs l) = sortByTs l :=
  List.Sorted.insertionSort_eq (sortByTs_sorted l)

/-- Abstract content of the one backing file of a `DataLogger`:
the file is absent, holds bytes that are unparseable JSON or whose JSON root
is not an array, or holds a JSON array of readings. -/
inductive FileContent where
  | absent
  | invalid
  | array (s : List Reading)
deriving DecidableEq

/-- Embedding of `DataLogger.load_data` (src/pi/logger.py:33-57).  The second
component is the file content after the call: the function only ever opens the
file for reading, so it is returned unchanged on every path. -/
def load_data (fc : FileContent) : List Reading × FileContent :=
  match fc with
  | FileContent.absent => ([], FileContent.absent)
  | FileContent.invalid => ([], FileContent.invalid)
  | FileContent.array s => (sortByTs s, FileContent.array s)

/-- Single injected failure point for a `save_data` run; `noFail` is the
run in which no operation raises. -/
inductive FailAt where
  | atMkstemp
  | atWrite
  | atRename
  | noFail
deriving DecidableEq

/-- Observable outcome of a `save_data` call: the returned boolean, the
target-file content after the call, whether this call's temporary file is
left behind, and the content of the caller's list object after the call
(Python `list.sort` reorders it in place). -/
structure SaveOutcome where
  ok : Bool
  target : FileContent
  tempLeft : Bool
  callerList : List Reading
deriving DecidableEq

/-- Embedding of `DataLogger.save_data` (src/pi/logger.py:59-96) with one
injected failure point per run. -/
def save_data (target : FileContent) (data : List Reading) (fail : FailAt) :
    SaveOutcome :=
  -- logger.py:70 — `data.sort(...)` reorders the caller's list first
  let sorted := sortByTs data
  match fail with
  | FailAt.atMkstemp =>
      -- `tempfile.mkstemp` raised: no temporary file exists yet; the outer
      -- handler (logger.py:94-96) logs and returns False
      ⟨false, target, false, sorted⟩
  | FailAt.atWrite =>
      -- `json.dump` raised mid-write: the inner handler (logger.py:86-92)
      -- unlinks the temporary file and re-raises; the outer returns False
      ⟨false, target, false, sorted⟩
  | FailAt.atRename =>
      -- `os.rename` raised after the temporary file was fully written: the
      -- inner handler unlinks it; the outer handler returns False
      ⟨false, target, false, sorted⟩
  | FailAt.noFail =>
      -- logger.py:83 — the rename atomically replaces the target
      ⟨true, FileContent.array sorted, false, sorted⟩

/-- Embedding of `DataLogger.prune_data` (src/pi/logger.py:124-147).  The
cutoff ISO string computed from `datetime.now(timezone.utc)` is a parameter;
the Python for-loop that appends matching readings is kept as a fold. -/
def prune_data (window_days : ℤ) (cutoff_iso : String) (data : List Reading) :
    List Reading :=
  if data = [] ∨ window_days ≤ 0 then data
  else data.foldl (fun acc r => if strLe cutoff_iso (tsKey r) then acc ++ [r] else acc) []

/-- Embedding of `DataLogger.append_reading` (src/pi/logger.py:98-122).
`reading = none` models a non-dict argument; a reading whose `timestamp`
field is `none` models a dict without a `'timestamp'` key. -/
def append_reading (target : FileContent) (window_days : ℤ) (cutoff_iso : String)
    (reading : Option Reading) (fail : FailAt) : Bool × FileContent :=
  match reading with
  | none => (false, target)
  | some r =>
    match r.timestamp with
    | none => (false, target)
    | some _ =>
      let data := (load_data target).1
      let appended := data ++ [r]
      let pruned := prune_data window_days cutoff_iso appended
      let out := save_data target pruned fail
      (out.ok, out.target)

/-- Rendering of a rational as a fraction, standing in for Python float
formatting inside `json.dump`. -/
def dumpRat (q : ℚ) : String := toString q.num ++ "/" ++ toString q.den

/-- Rendering of an optional numeric field: `null` or the number. -/
def dumpOpt : Option ℚ → String
  | none => "null"
  | some q => dumpRat q

/-- Rendering of one reading as a JSON object. -/
def dumpReading (r : Reading) : String :=
  "\x7b\"timestamp\": "
    ++ (match r.timestamp with
        | none => "null"
        | some t => "\"" ++ t ++ "\"")
    ++ ", \"ph\": " ++ dumpOpt r.ph
    ++ ", \"tds\": " ++ dumpOpt r.tds
    ++ ", \"temp_c\": " ++ dumpOpt r.temp_c
    ++ "\x7d"

/-- Rendering of a series as a JSON array, standing in for `json.dump` in
`save_data`: the bytes written are a function of the series value alone. -/
def dumps : List Reading → String
  | [] => "[]"
  | r :: rs =>
      "[" ++ rs.foldl (fun acc x => acc ++ ", " ++ dumpReading x) (dumpReading r) ++ "]"

/-- Bytes of the backing file for a given abstract content; only the
`array` case is produced by a successful `save_data`. -/
def fileBytes : FileContent → String
  | FileContent.absent => ""
  | FileContent.invalid => ""
  | FileContent.array s => dumps s

/-- The save → load → save round trip of C6, on the target-file content. -/
def saveLoadSave (fc : FileContent) (s : List Reading) : FileContent :=
  let fc1 := (save_data fc s FailAt.noFail).target
  let loaded := (load_data fc1).1
  (save_data fc1 loaded FailAt.noFail).target

/-- C1: whenever `save_data` fails at any injected point — at temporary-file
creation, mid-write, or at the rename after the temporary file is fully
written — it returns `false` rather than raising, the temporary file is
removed, and the target-file content is unchanged. -/
theorem save_data_failure_atomic (target : FileContent) (data : List Reading)
    (fail : FailAt) (h : fail ≠ FailAt.noFail) :
    (save_data target data fail).ok = false ∧
    (save_data target data fail).target = target ∧
    (save_data target data fail).tempLeft = false := by
  cases fail <;> simp [save_data] at h ⊢

/-- C1 witness: a failure injected at the rename step, on an existing
backing file. -/
theorem save_data_failure_atomic_witness :
    (save_data (FileContent.array []) [] FailAt.atRename).ok = false ∧
    (save_data (FileContent.array []) [] FailAt.atRename).target
      = FileContent.array [] ∧
    (save_data (FileContent.array []) [] FailAt.atRename).tempLeft = false :=
  save_data_failure_atomic (FileContent.array []) [] FailAt.atRename (by decide)

/-- C10: `save_data` sorts the caller's list object in place by timestamp
before writing, so after the call — whether or not the save succeeds — the
caller observes its list equal to the stable sort of the original: a
timestamp-ascending reordering of the same entries. -/
theorem save_data_mutates_caller (target : FileContent) (data : List Reading)
    (fail : FailAt) :
    (save_data target data fail).callerList = sortByTs data ∧
    ((save_data target data fail).callerList).Sorted tsLe ∧
    List.Perm ((save_data target data fail).callerList) data := by
  refine ⟨?_, ?_, ?_⟩ <;>
    cases fail <;> simp [save_data, sortByTs_sorted, sortByTs_perm]

/-- C5: `load_data` returns an empty series for an absent file; an empty
series for unparseable or non-array content, leaving the file unchanged; and
for a parsed array a timestamp-sorted permutation of it, again leaving the
file unchanged. -/
theorem load_data_spec :
    (load_data FileContent.absent).1 = [] ∧
    (load_data FileContent.invalid).1 = [] ∧
    (load_data FileContent.invalid).2 = FileContent.invalid ∧
    ∀ s, ((load_data (FileContent.array s)).1).Sorted tsLe ∧
      List.Perm ((load_data (FileContent.array s)).1) s ∧
      (load_data (FileContent.array s)).2 = FileContent.array s :=
  ⟨rfl, rfl, rfl, fun s => ⟨sortByTs_sorted s, sortByTs_perm s, rfl⟩⟩

/-- C6: the save → load → save round trip reproduces the target-file content
of the single save, hence byte-identical file bytes: sorting by timestamp is
a fixed point of the save/load cycle. -/
theorem save_load_save_fixed (fc : FileContent) (s : List Reading) :
    saveLoadSave fc s = (save_data fc s FailAt.noFail).target ∧
    fileBytes (saveLoadSave fc s)
      = fileBytes ((save_data fc s FailAt.noFail).target) := by
  have h2 : saveLoadSave fc s
      = FileContent.array (sortByTs (sortByTs (sortByTs s))) := rfl
  have h1 : (save_data fc s FailAt.noFail).target
      = FileContent.array (sortByTs s) := rfl
  rw [h2, h1, sortByTs_idem, sortByTs_idem]
  exact ⟨rfl, rfl⟩

theorem prune_loop_eq_filter (cutoff : String) :
    ∀ (l : List Reading) (acc : List Reading),
      l.foldl (fun acc r => if strLe cutoff (tsKey r) then acc ++ [r] else acc) acc
        = acc ++ l.filter (fun r => decide (strLe cutoff (tsKey r))) := by
  intro l
  induction l with
  | nil => intro acc; simp
  | cons r rs ih =>
    intro acc
    rw [List.foldl_cons, List.filter_cons]
    by_cases hp : strLe cutoff (tsKey r)
    · rw [if_pos hp, ih, if_pos (by simpa using hp), List.append_assoc]
      rfl
    · rw [if_neg hp, ih, if_neg (by simpa using hp)]

/-- C3: pruning with a non-positive retention window returns the series
unchanged; with a positive window it keeps exactly the readings whose
timestamp is at least the cutoff, in their original order. -/
theorem prune_data_spec (W : ℤ) (cutoff : String) (data : List Reading) :
    (W ≤ 0 → prune_data W cutoff data = data) ∧
    (0 < W → prune_data W cutoff data
        = data.filter (fun r => decide (strLe cutoff (tsKey r)))) := by
  constructor
  · intro h
    unfold prune_data
    rw [if_pos (Or.inr h)]
  · intro h
    unfold prune_data
    by_cases hd : data = []
    · subst hd
      simp
    · rw [if_neg (by push_neg; exact ⟨hd, by omega⟩), prune_loop_eq_filter]
      simp

/-- C3 witness: a window of −1 days leaves a one-reading series unchanged; a
window of 30 days keeps exactly the reading at or after the cutoff. -/
theorem prune_data_spec_witness :
    prune_data (-1) "2024-01-01" [⟨some "2023-01-02", none, none, none⟩]
      = [⟨some "2023-01-02", none, none, none⟩] ∧
    prune_data 30 "2024-01-01"
        [⟨some "2023-01-02", none, none, none⟩, ⟨some "2024-06-01", none, none, none⟩]
      = [⟨some "2024-06-01", none, none, none⟩] := by
  constructor
  · exact (prune_data_spec (-1) "2024-01-01"
      [⟨some "2023-01-02", none, none, none⟩]).1 (by norm_num)
  · have h := (prune_data_spec 30 "2024-01-01"
      [⟨some "2023-01-02", none, none, none⟩, ⟨some "2024-06-01", none, none, none⟩]).2
      (by norm_num)
    rw [h]
    decide

/-- C4: `append_reading` rejects a non-dict reading or one lacking a
`'timestamp'` field with a `false` result and an unchanged backing file;
for a valid reading it performs load → append → prune → save and returns the
save's success result and resulting file content. -/
theorem append_reading_spec (target : FileContent) (W : ℤ) (cutoff : String)
    (reading : Option Reading) (fail : FailAt) :
    ((reading = none ∨ ∃ r, reading = some r ∧ r.timestamp = none) →
      append_reading target W cutoff reading fail = (false, target)) ∧
    (∀ r ts, reading = some r → r.timestamp = some ts →
      append_reading target W cutoff reading fail =
        ((save_data target (prune_data W cutoff ((load_data target).1 ++ [r])) fail).ok,
         (save_data target (prune_data W cutoff ((load_data target).1 ++ [r])) fail).target)) := by
  constructor
  · intro h
    rcases h with h | ⟨r, hr, hts⟩
    · subst h
      rfl
    · subst hr
      simp [append_reading, hts]
  · intro r ts hr hts
    subst hr
    simp [append_reading, hts]

/-- C4 witness: a non-dict reading is rejected on an absent file; a reading
with a timestamp goes through load, append, prune and save. -/
theorem append_reading_spec_witness :
    append_reading FileContent.absent 60 "2024-01-01" none FailAt.noFail
      = (false, FileContent.absent) ∧
    append_reading FileContent.absent 60 "2024-01-01"
        (some ⟨some "2024-06-01", none, none, none⟩) FailAt.noFail
      = ((save_data FileContent.absent
            (prune_data 60 "2024-01-01"
              ((load_data FileContent.absent).1 ++ [⟨some "2024-06-01", none, none, none⟩]))
            FailAt.noFail).ok,
         (save_data FileContent.absent
            (prune_data 60 "2024-01-01"
              ((load_data FileContent.absent).1 ++ [⟨some "2024-06-01", none, none, none⟩]))
            FailAt.noFail).target) :=
  ⟨(append_reading_spec FileContent.absent 60 "2024-01-01" none FailAt.noFail).1
      (Or.inl rfl),
   (append_reading_spec FileContent.absent 60 "2024-01-01"
      (some ⟨some "2024-06-01", none, none, none⟩) FailAt.noFail).2
      ⟨some "2024-06-01", none, none, none⟩ "2024-06-01" rfl rfl⟩

/-- C7: `tds_from_ec 1000 0.5` is exactly `500`, and in general the result is
absent exactly when `ec < 0`, the multiplier is non-positive, or the product
exceeds 5000 ppm; otherwise it is the product rounded to 1 fractional digit. -/
theorem tds_from_ec_spec :
    tds_from_ec 1000 0.5 = some 500 ∧
    ∀ ec m : ℚ,
      (tds_from_ec ec m = none ↔ (ec < 0 ∨ m ≤ 0 ∨ 5000 < ec * m)) ∧
      (¬ (ec < 0 ∨ m ≤ 0 ∨ 5000 < ec * m) →
        tds_from_ec ec m = some (round1 (ec * m))) := by
  refine ⟨by norm_num [tds_from_ec, round1, pyRound], fun ec m => ?_⟩
  have e : tds_from_ec ec m
      = if ec < 0 ∨ m ≤ 0 then none
        else if 5000 < ec * m then none
        else some (round1 (ec * m)) := rfl
  constructor
  · rw [e]
    by_cases h1 : ec < 0 ∨ m ≤ 0
    · rw [if_pos h1]
      exact ⟨fun _ => Or.elim h1 Or.inl (fun h => Or.inr (Or.inl h)), fun _ => rfl⟩
    · rw [if_neg h1]
      by_cases h2 : 5000 < ec * m
      · rw [if_pos h2]
        exact ⟨fun _ => Or.inr (Or.inr h2), fun _ => rfl⟩
      · rw [if_neg h2]
        constructor
        · intro h
          exact absurd h (Option.some_ne_none _)
        · intro h
          rcases h with h | h | h
          · exact absurd h (fun hh => h1 (Or.inl hh))
          · exact absurd h (fun hh => h1 (Or.inr hh))
          · exact absurd h h2
  · intro h
    push_neg at h
    obtain ⟨hec, hm, hprod⟩ := h
    rw [e, if_neg (by push_neg; exact ⟨hec, hm⟩), if_neg (not_lt.mpr hprod)]

/-- C7 witness: the general clause applied at `ec = 10`, `m = 2`. -/
theorem tds_from_ec_spec_witness :
    (tds_from_ec 10 2 = none ↔ ((10:ℚ) < 0 ∨ (2:ℚ) ≤ 0 ∨ 5000 < (10:ℚ) * 2)) ∧
    tds_from_ec 10 2 = some (round1 ((10:ℚ) * 2)) :=
  ⟨(tds_from_ec_spec.2 10 2).1, (tds_from_ec_spec.2 10 2).2 (by norm_num)⟩

/-- C8 counterexample: at voltage 1.65, slope −3.333, intercept 12.5 the code
does not return 7.003. -/
theorem ph_scenario_not_7003 :
    ph_from_voltage 1.65 (-3.333) 12.5 ≠ some 7.003 := by
  norm_num [ph_from_voltage, round3, pyRound]

/-- C8 amended: at voltage 1.65, slope −3.333, intercept 12.5 the linear
result is 7.00055, which rounds to 7.001 (≈ 7.0), not 7.003. -/
theorem ph_scenario_eq_7001 :
    ph_from_voltage 1.65 (-3.333) 12.5 = some 7.001 := by
  norm_num [ph_from_voltage, round3, pyRound]

/-! ### Sensor orchestrator and mock ADC (`src/pi/sensors.py`, `src/pi/hal.py`) -/

/-- Configuration state stored by `AquaponicsSensors.__init__`
(src/pi/sensors.py:25-58). -/
structure AquaponicsSensors where
  adc_address : ℤ
  ph_channel : ℤ
  tds_channel : ℤ
  ph_slope : ℚ
  ph_intercept : ℚ
  tds_multiplier : ℚ
  mock : Bool
deriving DecidableEq

/-- Embedding of `AquaponicsSensors.__init__` (src/pi/sensors.py:25-58).  The
constructor stores its arguments and builds the hardware interfaces; it
performs no channel validation, and with the mock interfaces no exception can
be raised (`create_adc` falls back to `MockADC` even when real hardware
construction fails).  `Except` models the possibility of a Python constructor
raising; the body never produces `error`. -/
def AquaponicsSensors.init (adc_address ph_channel tds_channel : ℤ)
    (ph_slope ph_intercept tds_multiplier : ℚ) (mock : Bool) :
    Except String AquaponicsSensors :=
  Except.ok
    ⟨adc_address, ph_channel, tds_channel, ph_slope, ph_intercept,
      tds_multiplier, mock⟩

/-- Per-channel mock voltages of `MockADC` (src/pi/hal.py:129-134). -/
def mock_voltages (channel : ℤ) : ℚ :=
  if channel = 0 then 2.5 else if channel = 1 then 1.8 else 0

/-- Embedding of `MockADC.read_voltage` (src/pi/hal.py:136-141): raises
`ValueError` for a channel outside `range(4)`, otherwise returns the mock
voltage. -/
def MockADC.read_voltage (channel : ℤ) : Except String ℚ :=
  if 0 ≤ channel ∧ channel < 4 then Except.ok (mock_voltages channel)
  else Except.error "Invalid channel"

/-- Embedding of `AquaponicsSensors.read_ph` (src/pi/sensors.py:60-77) over
the mock ADC: the surrounding `try/except` absorbs any exception from
`read_voltage` into an absent result. -/
def AquaponicsSensors.read_ph (s : AquaponicsSensors) : Option ℚ :=
  match MockADC.read_voltage s.ph_channel with
  | Except.error _ => none
  | Except.ok v =>
    match voltage_to_ph v s.ph_slope s.ph_intercept with
    | none => none
    | some ph => if validate_sensor_range ph 0 14 then some ph else none

/-- C9 counterexample: constructing the sensor interface with pH channel 7 —
outside the supported set 0..3 — succeeds; nothing fails at construction
time. -/
theorem init_invalid_channel_succeeds :
    AquaponicsSensors.init 72 7 1 (-3.333) 12.5 0.5 true
      = Except.ok ⟨72, 7, 1, -3.333, 12.5, 0.5, true⟩ := rfl

/-- C9 amended: an out-of-range channel is not rejected at construction —
`__init__` stores it and succeeds — and the error is instead raised by
`MockADC.read_voltage` at read time and absorbed there by `read_ph` into an
absent reading. -/
theorem invalid_channel_deferred (ch : ℤ) (h : ch < 0 ∨ 4 ≤ ch)
    (a t : ℤ) (sl ic tm : ℚ) (mk : Bool) :
    (∃ cfg, AquaponicsSensors.init a ch t sl ic tm mk = Except.ok cfg ∧
      cfg.ph_channel = ch) ∧
    (∃ msg, MockADC.read_voltage ch = Except.error msg) ∧
    (∀ cfg, AquaponicsSensors.init a ch t sl ic tm mk = Except.ok cfg →
      cfg.read_ph = none) := by
  have herr : MockADC.read_voltage ch = Except.error "Invalid channel" := by
    unfold MockADC.read_voltage
    rw [if_neg (by omega)]
  refine ⟨⟨_, rfl, rfl⟩, ⟨_, herr⟩, ?_⟩
  intro cfg hcfg
  injection hcfg with h2
  subst h2
  unfold AquaponicsSensors.read_ph
  rw [show (⟨a, ch, t, sl, ic, tm, mk⟩ : AquaponicsSensors).ph_channel = ch
        from rfl,
      herr]

/-- C9 witness: the amended claim applied at channel 7 with the default
calibration. -/
theorem invalid_channel_deferred_witness :
    (∃ cfg, AquaponicsSensors.init 72 7 1 (-3.333) 12.5 0.5 true
        = Except.ok cfg ∧ cfg.ph_channel = 7) ∧
    (∃ msg, MockADC.read_voltage 7 = Except.error msg) ∧
    (∀ cfg, AquaponicsSensors.init 72 7 1 (-3.333) 12.5 0.5 true
        = Except.ok cfg → cfg.read_ph = none) :=
  invalid_channel_deferred 7 (by norm_num) 72 1 (-3.333) 12.5 0.5 true

end Aqua
